import Mathlib

/-!
Shallow embedding of the `telegramlibrary` scripts
(`channel_forwarder.py`, `pdfuploader.py`, `pdfscrapper.py`)
and proofs about their history store, rate limiter, transfer loop,
entity resolver and resume logic.

Wall-clock times are modelled as rationals, Python dicts as ordered
association lists with overwriting insertion, and the external Telegram
client as oracle parameters (`resolve`, `downloadOk`, `sendOk`, ...).
-/

namespace TGLib

/-! ## Association maps (Python `dict` with string keys) -/

/-- Lookup in an association list (first binding wins, as in a `dict`
where each key occurs at most once). -/
def aget {α β : Type} [DecidableEq α] : List (α × β) → α → Option β
  | [], _ => none
  | (k', v) :: t, k => if k' = k then some v else aget t k

/-- `d[k] = v` on a Python dict: overwrite the existing binding in place,
or append a fresh binding at the end. -/
def aset {α β : Type} [DecidableEq α] : List (α × β) → α → β → List (α × β)
  | [], k, v => [(k, v)]
  | (k', v') :: t, k, v =>
      if k' = k then (k, v) :: t else (k', v') :: aset t k v

/-! ## Python string primitives

Executable models (by structural recursion, so that the kernel can
evaluate them) of the `str` methods the scripts use: `replace` with an
empty replacement, `isdigit`, `int(...)`, `split`, `startswith`,
`lower`. -/

/-- Core of `s.replace(pat, '')`: delete non-overlapping occurrences of
`pat`, scanning left to right.  The fuel is an upper bound on the number
of characters consumed (the original length suffices). -/
def pyRemoveAux (pat : List Char) : ℕ → List Char → List Char
  | _, [] => []
  | 0, l => l
  | fuel + 1, c :: rest =>
      if pat ≠ [] ∧ pat.isPrefixOf (c :: rest) then
        pyRemoveAux pat fuel (List.drop pat.length (c :: rest))
      else c :: pyRemoveAux pat fuel rest

/-- Python `s.replace(pat, '')` (the scripts only ever replace with the
empty string). -/
def pyRemove (s pat : String) : String :=
  ⟨pyRemoveAux pat.data s.data.length s.data⟩

/-- Python `s.isdigit()`, restricted to ASCII digits: non-empty and all
digits. -/
def pyIsDigit (s : String) : Bool :=
  !s.data.isEmpty && s.data.all Char.isDigit

/-- Digits-only string to number; `none` on empty input or any
non-digit. -/
def digitsToNat : List Char → Option ℕ
  | [] => none
  | l => go l 0
where
  go : List Char → ℕ → Option ℕ
    | [], acc => some acc
    | c :: rest, acc =>
        if c.isDigit then go rest (acc * 10 + (c.toNat - '0'.toNat))
        else none

/-- Python `int(s)` on the strings this program feeds it (digits and `-`
signs only; no whitespace, `+` or underscores): an optional single
leading `-` followed by at least one digit; anything else raises
`ValueError`, modelled as `none`. -/
def pyInt (s : String) : Option ℤ :=
  match s.data with
  | '-' :: rest => (digitsToNat rest).map (fun n => -(n : ℤ))
  | l => (digitsToNat l).map (fun n => (n : ℤ))

/-- Python `s.split(sep)` for a single-character separator, on the raw
character list. -/
def splitOnChar (sep : Char) : List Char → List (List Char)
  | [] => [[]]
  | c :: rest =>
      let r := splitOnChar sep rest
      if c = sep then [] :: r
      else
        match r with
        | [] => [[c]]
        | h :: t => (c :: h) :: t

/-- Python `s.split(sep)` (single-character separator). -/
def pySplit (s : String) (sep : Char) : List String :=
  (splitOnChar sep s.data).map (fun l => ⟨l⟩)

/-- Python `s.startswith(pre)`. -/
def pyStartswith (s pre : String) : Bool :=
  pre.data.isPrefixOf s.data

/-- Python `s.lower()` (ASCII). -/
def pyLower (s : String) : String := ⟨s.data.map Char.toLower⟩

/-! ## Rate limiter of `channel_forwarder.py` (`_wait_for_rate_limit`) -/

/-- `self.RATE_LIMIT = 30  # requests per second` -/
def RATE_LIMIT : ℕ := 30

/-- `self.RATE_WINDOW = 1  # window in seconds` -/
def RATE_WINDOW : ℚ := 1

/-- The limiter's mutable state: `self.last_request_time` (the start of the
current window) and `self.requests_in_window`. -/
structure RateState where
  last_request_time : ℚ
  requests_in_window : ℕ
deriving DecidableEq

/-- One call to `_wait_for_rate_limit` (lines 157-184 of
`channel_forwarder.py`).  `now` is `time.time()` on entry; `wake` is
`time.time()` after the sleep (only relevant on the sleeping branch).
Returns the time slept together with the new state:
* if `time_passed >= RATE_WINDOW`: reset the window (count becomes 0,
  window start becomes `now`), then `requests_in_window += 1`;
* elif `requests_in_window >= RATE_LIMIT`: sleep
  `RATE_WINDOW - time_passed`, reset the count and set the window start
  to the post-sleep clock, then `+= 1`;
* else just `requests_in_window += 1`. -/
def waitForRateLimit (s : RateState) (now wake : ℚ) : ℚ × RateState :=
  let time_passed := now - s.last_request_time
  if RATE_WINDOW ≤ time_passed then
    (0, ⟨now, 1⟩)
  else if RATE_LIMIT ≤ s.requests_in_window then
    (RATE_WINDOW - time_passed, ⟨wake, 1⟩)
  else
    (0, ⟨s.last_request_time, s.requests_in_window + 1⟩)

/-- A sequence of calls to `_wait_for_rate_limit`; each entry of the list is
the pair (clock on entry, clock after a potential sleep).  Returns the final
state and the list of sleep durations, one per call. -/
def runLimiter : RateState → List (ℚ × ℚ) → RateState × List ℚ
  | s, [] => (s, [])
  | s, (now, wake) :: rest =>
      let r := waitForRateLimit s now wake
      let rr := runLimiter r.2 rest
      (rr.1, r.1 :: rr.2)

/-! ## Rate limiter of `pdfscrapper.py` (`handle_rate_limiting`) -/

/-- `MAX_DOWNLOADS_PER_MINUTE = 600` -/
def MAX_DOWNLOADS_PER_MINUTE : ℕ := 600

/-- `handle_rate_limiting(minute_count, minute_start)` (lines 156-162 of
`pdfscrapper.py`): if the per-minute budget is exhausted and fewer than 60
seconds have elapsed since `minute_start`, sleep out the remainder and
return 0; if the budget is exhausted but the minute has elapsed, return 0
without sleeping; otherwise return the count unchanged.  The caller never
updates `minute_start`, so it stays at its initial value forever.
Result: (seconds slept, returned count). -/
def handleRateLimiting (minute_count : ℕ) (minute_start now : ℚ) : ℚ × ℕ :=
  if MAX_DOWNLOADS_PER_MINUTE ≤ minute_count then
    if now - minute_start < 60 then (60 - (now - minute_start), 0)
    else (0, 0)
  else (0, minute_count)

/-- The downloader's calling pattern (`process_single_message`): each
processed item calls `handle_rate_limiting` and then increments the
returned count by one.  `ms` is the (never-updated) `minute_start`.
Returns the final count and the sleep durations, one per item. -/
def runScrapperLimiter (ms : ℚ) : ℕ → List ℚ → ℕ × List ℚ
  | c, [] => (c, [])
  | c, t :: ts =>
      let r := handleRateLimiting c ms t
      let rr := runScrapperLimiter ms (r.2 + 1) ts
      (rr.1, r.1 :: rr.2)

/-! ## History store: records and load/save -/

/-- A value written into `forward_history`.  `forward_message` (lines
232-238) writes a per-target record; `forward_messages` (lines 279-283)
overwrites it with a per-message record.  Timestamps
(`datetime.now().isoformat()`) are abstracted as naturals. -/
inductive FRecord
  | perTarget (timestamp : ℕ) (source_channel target_channel : String)
      (source_message_id target_message_id : ℕ)
  | perMessage (timestamp : ℕ) (source : String) (message_id : ℕ)
deriving DecidableEq

/-- `forward_history`: a flat JSON object, keys `"{source id}_{message id}"`. -/
abbrev History := List (String × FRecord)

/-- `key ∈ history` (Python `in` on a dict). -/
def hmem (h : History) (k : String) : Bool := (aget h k).isSome

/-- Outcome of reading the history file from disk. -/
inductive ReadResult (α : Type)
  | absent
  | unparseable
  | content (a : α)

/-- `load_history` of `channel_forwarder.py` (lines 54-63): missing file or
any exception (e.g. a JSON parse error) yields `{}`; the error is printed,
never raised. -/
def load_history_fwd : ReadResult History → History
  | .absent => []
  | .unparseable => []
  | .content h => h

/-- `save_history` of `channel_forwarder.py` (lines 65-71): the write is
wrapped in `try/except`, so the function always returns normally; the disk
contents change only when the write succeeds. -/
def save_history_fwd (writeOk : Bool) (mem disk : History) : Except Unit History :=
  .ok (if writeOk then mem else disk)

/-- The key `f"{source_channel.id}_{message.id}"`. -/
def fwdKey (sid mid : ℕ) : String := toString sid ++ "_" ++ toString mid

/-! ## Forwarder transfer loop (`forward_message` / `forward_messages`) -/

/-- The fields of a Telethon message that the forwarder inspects:
`message.id`, `message.media` (truthiness) and `message.text`
(`""` is falsy in Python). -/
structure Msg where
  id : ℕ
  hasMedia : Bool
  text : String
deriving DecidableEq

/-- Oracles for the external client and filesystem, plus abstracted
ambient values. `downloadOk`: `download_media` returns a path;
`sendOk`: `send_file` / `send_message` succeeds and returns a message;
`writeOk`: writing the history file succeeds; `ts`: the current
timestamp; `sentId`: the id the target assigns to the re-sent message;
`title`: `source.title`. -/
structure FwdEnv where
  downloadOk : Bool
  sendOk : Bool
  writeOk : Bool
  ts : ℕ
  sentId : ℕ
  title : String

/-- Observable actions of the transfer loop. -/
inductive Ev
  | rateWait
  | transferCall (msgId targetId : ℕ)
  | paceSleep
deriving DecidableEq

/-- Result of `forward_message`: returned boolean, in-memory history,
on-disk history, emitted events. -/
structure FMRes where
  ok : Bool
  history : History
  disk : History
  evs : List Ev
deriving DecidableEq

/-- `forward_message(source, target, message)` (lines 186-251 of
`channel_forwarder.py`).  It first calls `_wait_for_rate_limit`; then:
* media present: download; on download failure return `False`;
  otherwise `send_file`; a send error returns `False`;
* no media but non-empty text: `send_message`; a falsy result returns
  `False`;
* neither: "has no content to copy", return `False`.
On a successful send it records a per-target entry under
`f"{source.id}_{message.id}"` and saves, then returns `True`. -/
def forwardMessage (env : FwdEnv) (sid tid : ℕ) (m : Msg) (h d : History) : FMRes :=
  let key := fwdKey sid m.id
  if m.hasMedia then
    if env.downloadOk then
      if env.sendOk then
        let h' := aset h key
          (.perTarget env.ts (toString sid) (toString tid) m.id env.sentId)
        ⟨true, h', if env.writeOk then h' else d, [Ev.rateWait]⟩
      else ⟨false, h, d, [Ev.rateWait]⟩
    else ⟨false, h, d, [Ev.rateWait]⟩
  else if m.text ≠ "" then
    if env.sendOk then
      let h' := aset h key
        (.perTarget env.ts (toString sid) (toString tid) m.id env.sentId)
      ⟨true, h', if env.writeOk then h' else d, [Ev.rateWait]⟩
    else ⟨false, h, d, [Ev.rateWait]⟩
  else
    ⟨false, h, d, [Ev.rateWait]⟩

/-- Intermediate state threaded through `forward_messages`' inner loop
over targets: history, disk, `stats['forwarded']`, `stats['failed']`. -/
structure TgtAcc where
  history : History
  disk : History
  forwarded : ℕ
  failed : ℕ
  evs : List Ev
deriving DecidableEq

/-- The `for target in self.targets:` loop (lines 270-276): call
`forward_message`, bump `forwarded`/`failed` by its result, then
`asyncio.sleep(0.5)`. -/
def forwardTargets (env : FwdEnv) (sid : ℕ) (m : Msg) :
    List ℕ → TgtAcc → TgtAcc
  | [], acc => acc
  | tid :: rest, acc =>
      let r := forwardMessage env sid tid m acc.history acc.disk
      forwardTargets env sid m rest
        ⟨r.history, r.disk,
          (if r.ok then acc.forwarded + 1 else acc.forwarded),
          (if r.ok then acc.failed else acc.failed + 1),
          acc.evs ++ (Ev.transferCall m.id tid :: r.evs) ++ [Ev.paceSleep]⟩

/-- The loop-level state of `forward_messages`. -/
structure FwdState where
  history : History
  disk : History
  forwarded : ℕ
  skipped : ℕ
  failed : ℕ
deriving DecidableEq

/-- The body of one iteration of `forward_messages`' message loop (lines
260-296) after the initial `_wait_for_rate_limit()`:
compute `message_hash`; if it is in `forward_history` increment
`stats['skipped']` and `continue`; otherwise run the target loop, then
unconditionally record a per-message entry under `message_hash` and save. -/
def forwardStepAfterWait (env : FwdEnv) (sid : ℕ) (targets : List ℕ) (m : Msg)
    (st : FwdState) : FwdState × List Ev :=
  let key := fwdKey sid m.id
  if hmem st.history key then
    ({ st with skipped := st.skipped + 1 }, [])
  else
    let acc := forwardTargets env sid m targets
      ⟨st.history, st.disk, st.forwarded, st.failed, []⟩
    let h' := aset acc.history key (.perMessage env.ts env.title m.id)
    ({ history := h',
       disk := if env.writeOk then h' else acc.disk,
       forwarded := acc.forwarded,
       skipped := st.skipped,
       failed := acc.failed }, acc.evs)

/-- One full iteration of the message loop: line 261 calls
`_wait_for_rate_limit()` BEFORE the dedup check, so every iteration begins
with a rate-limiter wait. -/
def forwardStep (env : FwdEnv) (sid : ℕ) (targets : List ℕ) (m : Msg)
    (st : FwdState) : FwdState × List Ev :=
  let r := forwardStepAfterWait env sid targets m st
  (r.1, Ev.rateWait :: r.2)

/-- `forward_messages` over a list of iterated messages. -/
def forwardRun (env : FwdEnv) (sid : ℕ) (targets : List ℕ) :
    FwdState → List Msg → FwdState × List Ev
  | st, [] => (st, [])
  | st, m :: ms =>
      let r := forwardStep env sid targets m st
      let rr := forwardRun env sid targets r.1 ms
      (rr.1, r.2 ++ rr.2)

/-! ## Uploader (`pdfuploader.py`) -/

/-- A value of `upload_history[target_id][file_hash]` (lines 131-135). -/
structure URec where
  filename : String
  timestamp : ℕ
  size : ℕ
deriving DecidableEq

/-- `upload_history`: JSON object mapping a target id to an object mapping
`f"{size}_{mtime}"` to a record — a two-level mapping. -/
abbrev UHistory := List (String × List (String × URec))

/-- `load_history` of `pdfuploader.py` (lines 38-46): missing file or parse
failure yields `{}`; the error is printed, never raised. -/
def load_history_upl : ReadResult UHistory → UHistory
  | .absent => []
  | .unparseable => []
  | .content h => h

/-- `save_history` of `pdfuploader.py` (lines 48-51): `mkdir` +
`write_text` with NO `try/except` — a failing write raises out of the
function. -/
def save_history_upl (writeOk : Bool) (mem _disk : UHistory) : Except Unit UHistory :=
  if writeOk then .ok mem else .error ()

/-- The file attributes `upload_file` reads: `filepath.name`,
`st_size`, `st_mtime` (the float mtime abstracted as a natural). -/
structure UplFile where
  name : String
  size : ℕ
  mtime : ℕ
deriving DecidableEq

/-- `file_hash = f"{filepath.stat().st_size}_{filepath.stat().st_mtime}"`. -/
def fileHash (f : UplFile) : String := toString f.size ++ "_" ++ toString f.mtime

/-- Two-level lookup `upload_history[target_id][file_hash]`. -/
def ulook2 (h : UHistory) (tid fh : String) : Option URec :=
  (aget h tid).bind (fun sub => aget sub fh)

/-- `upload_history.setdefault(target_id, {})[file_hash] = rec`, i.e. lines
128-135: create the per-target sub-dict if missing, then insert. -/
def uinsert (h : UHistory) (tid fh : String) (r : URec) : UHistory :=
  aset h tid (aset ((aget h tid).getD []) fh r)

/-- Statistics of the uploader (`self.stats`). -/
structure UStats where
  uploaded : ℕ
  skipped : ℕ
  failed : ℕ
  total_size : ℕ
  last_file : Option String
deriving DecidableEq

/-- Result of `upload_file`: returned boolean, in-memory history, on-disk
history, stats, and whether `send_file` was attempted. -/
structure URes where
  ok : Bool
  history : UHistory
  disk : UHistory
  stats : UStats
  sent : Bool
deriving DecidableEq

/-- `upload_file(filepath, target)` (lines 114-148 of `pdfuploader.py`):
* if `target_id in upload_history and file_hash in upload_history[target_id]`:
  `stats['skipped'] += 1`, return `False` — no send, nothing changes;
* otherwise `send_file`; on a send error the `except` branch counts a
  failure and returns `False`;
* on success insert the record, update stats, then `save_history()`;
  `save_history` has no handler of its own, so a failing write is caught
  by `upload_file`'s `except`, which counts a failure and returns `False`
  even though the in-memory history and upload stats were already
  updated. -/
def uploadFile (f : UplFile) (tid : String) (sendOk writeOk : Bool) (ts : ℕ)
    (hist disk : UHistory) (stats : UStats) : URes :=
  let fh := fileHash f
  if (ulook2 hist tid fh).isSome then
    ⟨false, hist, disk, { stats with skipped := stats.skipped + 1 }, false⟩
  else if sendOk then
    let hist' := uinsert hist tid fh ⟨f.name, ts, f.size⟩
    let stats' := { stats with
      uploaded := stats.uploaded + 1,
      total_size := stats.total_size + f.size,
      last_file := some f.name }
    if writeOk then ⟨true, hist', hist', stats', true⟩
    else ⟨false, hist', disk, { stats' with failed := stats'.failed + 1 }, true⟩
  else
    ⟨false, hist, disk, { stats with failed := stats.failed + 1 }, true⟩

/-! ## Downloader (`pdfscrapper.py`, `process_single_message`) -/

/-- What `process_single_message` inspects about a message: whether it is
truthy and has an `id` attribute, and the id itself. -/
structure SMsg where
  valid : Bool
  id : ℕ
deriving DecidableEq

/-- Result of `process_single_message`: the processed-id set, the skipped
counter, the returned minute count, the returned processed flag, the time
slept by the rate limiter, and whether `download_media` was called. -/
structure ScrapRes where
  pids : List ℕ
  skipped : ℕ
  count : ℕ
  processed : Bool
  sleep : ℚ
  downloaded : Bool
deriving DecidableEq

/-- `process_single_message(message, minute_count, minute_start)` (lines
140-154 of `pdfscrapper.py`):
* an invalid message is ignored;
* `message.id in self.processed_ids`: `skipped_files += 1`, return — no
  rate-limit call, no download, set unchanged;
* not an e-book: return unchanged;
* otherwise `handle_rate_limiting`, then `download_ebook` (which adds the
  id to `processed_ids` only when the download yields a file), and return
  `minute_count + 1`.
`isEbook` abstracts `is_ebook(message)`, `dlOk` whether `download_media`
returns an existing path. -/
def processSingleMessage (pids : List ℕ) (skipped : ℕ) (m : SMsg)
    (isEbook dlOk : Bool) (c : ℕ) (ms now : ℚ) : ScrapRes :=
  if !m.valid then ⟨pids, skipped, c, false, 0, false⟩
  else if m.id ∈ pids then ⟨pids, skipped + 1, c, false, 0, false⟩
  else if !isEbook then ⟨pids, skipped, c, false, 0, false⟩
  else
    let r := handleRateLimiting c ms now
    if dlOk then ⟨m.id :: pids, skipped, r.2 + 1, true, r.1, true⟩
    else ⟨pids, skipped, r.2 + 1, true, r.1, true⟩

/-! ## Entity resolver (`_get_entity_from_name`) -/

/-- A `get_entity` argument: an integer id or a string handle. -/
inductive Query
  | byId (n : ℤ)
  | byName (s : String)
deriving DecidableEq

/-- The guard `str(channel_name).replace('-', '').isdigit()`. -/
def numericGuard (s : String) : Bool := pyIsDigit (pyRemove s "-")

/-- Try `get_entity` on each candidate in order, treating a `ValueError`
("not found") as `none` and continuing; `resolve` is the external client. -/
def tryQueries {E : Type} (resolve : Query → Option E) : List Query → Option E
  | [] => none
  | q :: qs =>
      match resolve q with
      | some e => some e
      | none => tryQueries resolve qs

/-- The ordered candidate list of `channel_forwarder._get_entity_from_name`
(lines 99-118).  For a numeric-looking input the code first BUILDS
`[int(channel_name), int(f"-100{clean_id}"), int(clean_id)]` where
`clean_id = channel_name.replace('-100', '')`; if one of those `int()`
calls raises (e.g. `"5-5"`, or `"-100"` whose `clean_id` is empty) the
exception escapes to the outer handler before any candidate is tried —
modelled as `none`.  Otherwise the numeric ids are tried first, then the
raw name and the `@`-prefixed name. -/
def forwarderCandidates (name : String) : Option (List Query) :=
  if numericGuard name then
    let clean_id := pyRemove name "-100"
    match pyInt name, pyInt ("-100" ++ clean_id), pyInt clean_id with
    | some a, some b, some c =>
        some [.byId a, .byId b, .byId c, .byName name, .byName ("@" ++ name)]
    | _, _, _ => none
  else
    some [.byName name, .byName ("@" ++ name)]

/-- Candidate list of `pdfuploader._get_entity_from_name` (lines 53-85):
same numeric candidates, but four name formats
`[target_name, f"@{target_name}", target_name.lower(), f"@{target_name.lower()}"]`. -/
def uploaderCandidates (name : String) : Option (List Query) :=
  if numericGuard name then
    let clean_id := pyRemove name "-100"
    match pyInt name, pyInt ("-100" ++ clean_id), pyInt clean_id with
    | some a, some b, some c =>
        some [.byId a, .byId b, .byId c, .byName name, .byName ("@" ++ name),
          .byName (pyLower name), .byName ("@" ++ pyLower name)]
    | _, _, _ => none
  else
    some [.byName name, .byName ("@" ++ name),
      .byName (pyLower name), .byName ("@" ++ pyLower name)]

/-- `channel_forwarder._get_entity_from_name`: first successful candidate
wins; if all fail, `ValueError(f"Could not find channel: {channel_name}")`
is raised and re-wrapped by the outer handler as
`ValueError(f"Invalid channel format: {channel_name} (...)")`; an `int()`
parse failure lands directly in the outer handler. -/
def getEntityFromName_fwd {E : Type} (resolve : Query → Option E)
    (name : String) : Except String E :=
  match forwarderCandidates name with
  | some qs =>
      match tryQueries resolve qs with
      | some e => .ok e
      | none => .error ("Invalid channel format: " ++ name ++
          " (Could not find channel: " ++ name ++ ")")
  | none => .error ("Invalid channel format: " ++ name ++
      " (invalid literal for int() with base 10)")

/-- `pdfuploader._get_entity_from_name`, same shape with the uploader's
candidate list and the message `"Invalid target format: ..."`. -/
def getEntityFromName_upl {E : Type} (resolve : Query → Option E)
    (name : String) : Except String E :=
  match uploaderCandidates name with
  | some qs =>
      match tryQueries resolve qs with
      | some e => .ok e
      | none => .error ("Invalid target format: " ++ name ++
          " (Could not find channel: " ++ name ++ ")")
  | none => .error ("Invalid target format: " ++ name ++
      " (invalid literal for int() with base 10)")

/-! ## Resume offset (`interactive_menu`, choice "2") -/

/-- `int(k.split('_')[1])`, as an `Option` (the program's keys always have
a parsable second component; an unparsable key would raise in Python and
is dropped here). -/
def keyMsgId (k : String) : Option ℤ := ((pySplit k '_').get? 1).bind pyInt

/-- Python's `max(xs, default=0)`. -/
def pyMax0 : List ℤ → ℤ
  | [] => 0
  | x :: xs => xs.foldl max x

/-- Lines 429-430 of `channel_forwarder.py`:
`max((int(k.split('_')[1]) for k in self.forward_history.keys() if
k.startswith(str(source.id))), default=0)`.  Note the `startswith` test:
a key of a DIFFERENT source whose decimal id merely extends this source's
id (e.g. key `"100_5"` against source id `10`) also passes. -/
def lastIdForSource (keys : List String) (sid : String) : ℤ :=
  pyMax0 ((keys.filter (fun k => pyStartswith k sid)).filterMap keyMsgId)

/-- The offset the claim describes: maximum message id among keys whose
SOURCE COMPONENT equals the source's id (keys parsed as
`"sourceId_messageId"`), default 0.  Stated from the claim, for comparison
with `lastIdForSource`. -/
def specLastIdForSource (keys : List String) (sid : String) : ℤ :=
  pyMax0 ((keys.filter (fun k => (pySplit k '_').get? 0 = some sid)).filterMap keyMsgId)

/-- Model of the external client's `iter_messages(entity, offset_id=off)`
(Telethon): with a positive offset it yields, newest first, exactly the
messages with id strictly below the offset; `offset_id=0` means no
offset. -/
def iterWithOffset (msgs : List Msg) (off : ℤ) : List Msg :=
  if off = 0 then msgs else msgs.filter (fun m => (m.id : ℤ) < off)

/-! ## Cancellation (`asyncio.CancelledError`) -/

/-- `_wait_for_rate_limit` with a cancellation oracle: `cancel` says that a
`CancelledError` is delivered during `asyncio.sleep`.  The code's handler
prints "Rate limit wait cancelled" and re-raises (lines 171-181), so the
error propagates (`Except.error`); cancellation can only strike when the
sleeping branch is taken. -/
def waitForRateLimitC (cancel : Bool) (s : RateState) (now wake : ℚ) :
    Except Unit (ℚ × RateState) :=
  let time_passed := now - s.last_request_time
  if RATE_WINDOW ≤ time_passed then .ok (0, ⟨now, 1⟩)
  else if RATE_LIMIT ≤ s.requests_in_window then
    if cancel then .error ()
    else .ok (RATE_WINDOW - time_passed, ⟨wake, 1⟩)
  else .ok (0, ⟨s.last_request_time, s.requests_in_window + 1⟩)

/-- One message-loop iteration including the limiter state, with
cancellation.  A `CancelledError` raised by the initial
`_wait_for_rate_limit` is NOT caught by the per-message
`except Exception` (a `CancelledError` is a `BaseException`), reaches
`forward_messages`' own `except asyncio.CancelledError: ... raise`
(lines 303-305) and so escapes the loop. -/
def forwardStepC (env : FwdEnv) (sid : ℕ) (targets : List ℕ) (m : Msg)
    (cancel : Bool) (rs : RateState) (now wake : ℚ) (st : FwdState) :
    Except Unit (RateState × FwdState × List Ev) :=
  match waitForRateLimitC cancel rs now wake with
  | .error e => .error e
  | .ok r =>
      let b := forwardStepAfterWait env sid targets m st
      .ok (r.2, b.1, Ev.rateWait :: b.2)

/-- `forward_messages` with cancellation: each list entry carries the
cancellation oracle and the clocks for its leading limiter call.  The
boolean of the result records whether the run ended by re-raising a
`CancelledError` to the caller. -/
def forwardRunC (env : FwdEnv) (sid : ℕ) (targets : List ℕ) :
    RateState → FwdState → List (Bool × ℚ × ℚ × Msg) →
      RateState × FwdState × Bool
  | rs, st, [] => (rs, st, false)
  | rs, st, (cancel, now, wake, m) :: rest =>
      match forwardStepC env sid targets m cancel rs now wake st with
      | .error _ => (rs, st, true)
      | .ok r => forwardRunC env sid targets r.1 r.2.1 rest

/-- `main()` (lines 436-453 of `channel_forwarder.py`): whatever the loop
returned — normal completion or a propagated `CancelledError`, which
`main` catches and logs — the `finally` block runs `save_history()` and
`client.disconnect()`.  Input: the loop's final state and its
cancellation flag; output: the state after the final save, and `True`
for "client disconnected". -/
def mainModel (writeOk : Bool) (run : FwdState × Bool) : FwdState × Bool :=
  let st := run.1
  ({ st with disk := if writeOk then st.history else st.disk }, true)

/-! # General lemmas -/

theorem aget_aset_self {α β : Type} [DecidableEq α]
    (l : List (α × β)) (k : α) (v : β) : aget (aset l k v) k = some v := by
  induction l with
  | nil => simp [aget, aset]
  | cons hd t ih =>
      obtain ⟨k', v'⟩ := hd
      by_cases h : k' = k
      · simp [aget, aset, h]
      · simp [aget, aset, h, ih]

theorem aget_aset_ne {α β : Type} [DecidableEq α]
    (l : List (α × β)) (k k' : α) (v : β) (h : k ≠ k') :
    aget (aset l k v) k' = aget l k' := by
  induction l with
  | nil => simp [aget, aset, h]
  | cons hd t ih =>
      obtain ⟨k0, v0⟩ := hd
      by_cases h0 : k0 = k
      · subst h0
        simp [aget, aset, h]
      · simp only [aset, if_neg h0]
        by_cases h1 : k0 = k'
        · simp [aget, h1]
        · simp [aget, h1, ih]

theorem runLimiter_append (s : RateState) (l₁ l₂ : List (ℚ × ℚ)) :
    runLimiter s (l₁ ++ l₂) =
      ((runLimiter (runLimiter s l₁).1 l₂).1,
        (runLimiter s l₁).2 ++ (runLimiter (runLimiter s l₁).1 l₂).2) := by
  induction l₁ generalizing s with
  | nil => simp [runLimiter]
  | cons hd t ih =>
      obtain ⟨now, wake⟩ := hd
      simp [runLimiter, ih]

/-- Calls strictly inside the current window that find the budget not yet
exhausted proceed without sleeping and only increment the count. -/
theorem runLimiter_under_budget (ts : List (ℚ × ℚ)) (w : ℚ) (c : ℕ)
    (hin : ∀ p ∈ ts, p.1 - w < RATE_WINDOW)
    (hc : c + ts.length ≤ RATE_LIMIT) :
    runLimiter ⟨w, c⟩ ts = (⟨w, c + ts.length⟩, List.replicate ts.length 0) := by
  induction ts generalizing c with
  | nil => simp [runLimiter]
  | cons hd t ih =>
      obtain ⟨now, wake⟩ := hd
      have h1 : ¬ RATE_WINDOW ≤ now - w := by
        have := hin (now, wake) (by simp)
        simpa using not_le.mpr this
      have h2 : ¬ RATE_LIMIT ≤ c := by
        have : c < RATE_LIMIT := by
          have := hc
          simp only [List.length_cons] at this
          omega
        omega
      have hstep : waitForRateLimit ⟨w, c⟩ now wake = (0, ⟨w, c + 1⟩) := by
        simp [waitForRateLimit, h1, h2]
      have ht : ∀ p ∈ t, p.1 - w < RATE_WINDOW := fun p hp => hin p (by simp [hp])
      have hct : (c + 1) + t.length ≤ RATE_LIMIT := by
        simp only [List.length_cons] at hc; omega
      simp only [runLimiter, hstep]
      rw [ih (c + 1) ht hct]
      simp [List.replicate_succ]
      omega

theorem runScrapperLimiter_append (ms : ℚ) (c : ℕ) (l₁ l₂ : List ℚ) :
    runScrapperLimiter ms c (l₁ ++ l₂) =
      ((runScrapperLimiter ms (runScrapperLimiter ms c l₁).1 l₂).1,
        (runScrapperLimiter ms c l₁).2 ++
          (runScrapperLimiter ms (runScrapperLimiter ms c l₁).1 l₂).2) := by
  induction l₁ generalizing c with
  | nil => simp [runScrapperLimiter]
  | cons hd t ih => simp [runScrapperLimiter, ih]

/-- While the count is under the budget, every call proceeds with zero sleep
(regardless of the clock) and the count just accumulates. -/
theorem runScrapperLimiter_under_budget (ms : ℚ) (ts : List ℚ) (c : ℕ)
    (hc : c + ts.length ≤ MAX_DOWNLOADS_PER_MINUTE) :
    runScrapperLimiter ms c ts = (c + ts.length, List.replicate ts.length 0) := by
  induction ts generalizing c with
  | nil => simp [runScrapperLimiter]
  | cons hd t ih =>
      have h2 : ¬ MAX_DOWNLOADS_PER_MINUTE ≤ c := by
        simp only [List.length_cons] at hc; omega
      have hstep : handleRateLimiting c ms hd = (0, c) := by
        simp [handleRateLimiting, h2]
      have hct : (c + 1) + t.length ≤ MAX_DOWNLOADS_PER_MINUTE := by
        simp only [List.length_cons] at hc; omega
      simp only [runScrapperLimiter, hstep]
      rw [ih (c + 1) hct]
      simp [List.replicate_succ]
      omega


/-! # Claim theorems -/

/-! ## C1: rate-limiter window discipline -/

/-- C1, counterexample.  The downloader's limiter does NOT begin a new
window after sleeping: `minute_start` is never advanced.  First conjunct:
starting fresh, 600 downloads at t = 1/2 proceed with zero sleep and the
601st sleeps 60 − 1/2 = 119/2 seconds (waking at t = 60, where the
claimed "new window" would begin).  Second conjunct: from the post-sleep
state (count 1, `minute_start` still 0), 601 further calls all at t = 61 —
all within 60 seconds of the new window's start — every one proceeds with
zero sleep, exceeding the budget of 600. -/
theorem scrapper_limiter_second_minute_unthrottled :
    runScrapperLimiter 0 0 (List.replicate 600 (1/2 : ℚ) ++ [(1/2 : ℚ)]) =
      (1, List.replicate 600 0 ++ [(119/2 : ℚ)]) ∧
    runScrapperLimiter 0 1 (List.replicate 601 (61 : ℚ)) =
      (2, List.replicate 601 0) := by
  constructor
  · have h600 := runScrapperLimiter_under_budget 0 (List.replicate 600 (1/2 : ℚ)) 0
      (by rw [List.length_replicate]; norm_num [MAX_DOWNLOADS_PER_MINUTE])
    rw [List.length_replicate] at h600
    norm_num only at h600
    have hover : handleRateLimiting 600 0 (1/2 : ℚ) = (119/2, 0) := by
      rw [handleRateLimiting]
      norm_num [MAX_DOWNLOADS_PER_MINUTE]
    rw [runScrapperLimiter_append, h600]
    show (_, List.replicate 600 (0:ℚ) ++ _) = _
    rw [runScrapperLimiter, runScrapperLimiter, hover]
  · have hsplit : List.replicate 601 (61 : ℚ) =
        List.replicate 599 (61 : ℚ) ++ ((61 : ℚ) :: List.replicate 1 (61 : ℚ)) := by
      rw [← List.replicate_succ, ← List.replicate_add]
    have h599 := runScrapperLimiter_under_budget 0 (List.replicate 599 (61 : ℚ)) 1
      (by rw [List.length_replicate]; norm_num [MAX_DOWNLOADS_PER_MINUTE])
    rw [List.length_replicate] at h599
    norm_num only at h599
    have hreset : handleRateLimiting 600 0 (61 : ℚ) = (0, 0) := by
      rw [handleRateLimiting]
      norm_num [MAX_DOWNLOADS_PER_MINUTE]
    have h1 := runScrapperLimiter_under_budget 0 (List.replicate 1 (61 : ℚ)) 1
      (by rw [List.length_replicate]; norm_num [MAX_DOWNLOADS_PER_MINUTE])
    rw [List.length_replicate] at h1
    norm_num only at h1
    rw [hsplit, runScrapperLimiter_append, h599]
    show (_, List.replicate 599 (0:ℚ) ++ _) = _
    rw [runScrapperLimiter, hreset]
    show (_, _ ++ ((0:ℚ) :: (runScrapperLimiter 0 (0+1) (List.replicate 1 61)).2)) = _
    norm_num only
    rw [h1]
    rw [show (601:ℕ) = 599 + 2 from rfl, List.replicate_add]
    rfl

/-- C1 (amended).  Forwarder (`_wait_for_rate_limit`, budget 30 per
1-second window): starting a fresh window at `w` with count 0, any 30
calls strictly inside the window proceed with zero sleep, and a 31st call
at time `t` still inside the window sleeps exactly
`RATE_WINDOW - (t - w)` and leaves a new window starting at its wake time
with the count reset (to 1, counting the woken call).
Downloader (`handle_rate_limiting`, budget 600 per minute): a call under
budget proceeds with zero sleep and an unchanged count; the call that
finds the budget exhausted within 60 seconds of `minute_start` sleeps
exactly `60 - elapsed` and resets the count — but `minute_start` is never
advanced, so (last conjunct) any call arriving 60 or more seconds after
`minute_start` never sleeps, whatever the count. -/
theorem rate_limiter_window_behavior :
    (∀ (w t wake : ℚ) (ts : List (ℚ × ℚ)),
      ts.length = RATE_LIMIT →
      (∀ p ∈ ts, p.1 - w < RATE_WINDOW) →
      t - w < RATE_WINDOW →
      runLimiter ⟨w, 0⟩ (ts ++ [(t, wake)]) =
        (⟨wake, 1⟩, List.replicate RATE_LIMIT 0 ++ [RATE_WINDOW - (t - w)])) ∧
    (∀ (c : ℕ) (ms now : ℚ), c < MAX_DOWNLOADS_PER_MINUTE →
      handleRateLimiting c ms now = (0, c)) ∧
    (∀ (ms now : ℚ), now - ms < 60 →
      handleRateLimiting MAX_DOWNLOADS_PER_MINUTE ms now = (60 - (now - ms), 0)) ∧
    (∀ (c : ℕ) (ms now : ℚ), 60 ≤ now - ms →
      (handleRateLimiting c ms now).1 = 0) := by
  refine ⟨?_, ?_, ?_, ?_⟩
  · intro w t wake ts hlen hin ht
    have hrun := runLimiter_under_budget ts w 0 hin (by omega)
    rw [Nat.zero_add] at hrun
    rw [runLimiter_append, hrun, hlen]
    have h1 : ¬ RATE_WINDOW ≤ t - w := not_le.mpr ht
    have hstep : waitForRateLimit ⟨w, RATE_LIMIT⟩ t wake =
        (RATE_WINDOW - (t - w), ⟨wake, 1⟩) := by
      rw [waitForRateLimit]
      simp only [if_neg h1, if_pos (le_refl RATE_LIMIT)]
    rw [runLimiter, runLimiter, hstep]
  · intro c ms now hc
    rw [handleRateLimiting, if_neg (Nat.not_le.mpr hc)]
  · intro ms now h
    rw [handleRateLimiting, if_pos (le_refl MAX_DOWNLOADS_PER_MINUTE), if_pos h]
  · intro c ms now h
    have h2 : ¬ now - ms < 60 := not_lt.mpr h
    rw [handleRateLimiting]
    by_cases hc : MAX_DOWNLOADS_PER_MINUTE ≤ c
    · rw [if_pos hc, if_neg h2]
    · rw [if_neg hc]

/-- C1 witness: the amended theorem applied at concrete inputs.  30 calls
at t = 1/2 in the window started at 0 sleep 0; the call at t = 3/4 sleeps
1/4 and the new window starts at its wake time 1 with count 1.  A
downloader call with count 599 proceeds; with count 600 at elapsed 10 it
sleeps 50; with elapsed 100 it never sleeps. -/
theorem rate_limiter_window_behavior_witness :
    runLimiter ⟨0, 0⟩ (List.replicate 30 ((1 : ℚ)/2, (2 : ℚ)) ++ [((3/4 : ℚ), (1 : ℚ))]) =
      (⟨1, 1⟩, List.replicate 30 0 ++ [(1/4 : ℚ)]) ∧
    handleRateLimiting 599 0 10 = (0, 599) ∧
    handleRateLimiting 600 0 10 = (50, 0) ∧
    (handleRateLimiting 600 0 100).1 = 0 := by
  obtain ⟨h1, h2, h3, h4⟩ := rate_limiter_window_behavior
  refine ⟨?_, ?_, ?_, ?_⟩
  · have := h1 0 (3/4) 1 (List.replicate 30 ((1 : ℚ)/2, (2 : ℚ)))
      (by rw [List.length_replicate]; rfl)
      (by
        intro p hp
        rw [List.eq_of_mem_replicate hp]
        norm_num [RATE_WINDOW])
      (by norm_num [RATE_WINDOW])
    rw [this]
    norm_num [RATE_WINDOW, RATE_LIMIT]
  · exact h2 599 0 10 (by norm_num [MAX_DOWNLOADS_PER_MINUTE])
  · have := h3 0 10 (by norm_num)
    rw [show (600 : ℕ) = MAX_DOWNLOADS_PER_MINUTE from rfl, this]
    norm_num
  · exact h4 600 0 100 (by norm_num)


/-! ## Helper lemmas on the forwarder loop -/

theorem forwardMessage_evs (env : FwdEnv) (sid tid : ℕ) (m : Msg) (h d : History) :
    (forwardMessage env sid tid m h d).evs = [Ev.rateWait] := by
  rw [forwardMessage]
  split <;> [skip; split] <;> [split <;> [split <;> rfl; rfl]; split <;> rfl; rfl]

theorem forwardMessage_result (env : FwdEnv) (sid tid : ℕ) (m : Msg) (h d : History) :
    forwardMessage env sid tid m h d = ⟨false, h, d, [Ev.rateWait]⟩ ∨
      forwardMessage env sid tid m h d =
        ⟨true,
          aset h (fwdKey sid m.id)
            (.perTarget env.ts (toString sid) (toString tid) m.id env.sentId),
          if env.writeOk then
            aset h (fwdKey sid m.id)
              (.perTarget env.ts (toString sid) (toString tid) m.id env.sentId)
          else d,
          [Ev.rateWait]⟩ := by
  rw [forwardMessage]
  split
  · split
    · split
      · right; rfl
      · left; rfl
    · left; rfl
  · split
    · split
      · right; rfl
      · left; rfl
    · left; rfl

theorem forwardMessage_history_cases (env : FwdEnv) (sid tid : ℕ) (m : Msg) (h d : History) :
    (forwardMessage env sid tid m h d).history = h ∨
      (forwardMessage env sid tid m h d).history =
        aset h (fwdKey sid m.id)
          (.perTarget env.ts (toString sid) (toString tid) m.id env.sentId) := by
  rcases forwardMessage_result env sid tid m h d with he | he <;> rw [he]
  · left; rfl
  · right; rfl

theorem forwardMessage_no_content (env : FwdEnv) (sid tid : ℕ) (m : Msg) (h d : History)
    (h1 : m.hasMedia = false) (h2 : m.text = "") :
    forwardMessage env sid tid m h d = ⟨false, h, d, [Ev.rateWait]⟩ := by
  simp [forwardMessage, h1, h2]

theorem forwardTargets_no_content (env : FwdEnv) (sid : ℕ) (m : Msg)
    (h1 : m.hasMedia = false) (h2 : m.text = "") :
    ∀ (ts : List ℕ) (acc : TgtAcc),
      (forwardTargets env sid m ts acc).history = acc.history ∧
      (forwardTargets env sid m ts acc).disk = acc.disk ∧
      (forwardTargets env sid m ts acc).forwarded = acc.forwarded ∧
      (forwardTargets env sid m ts acc).failed = acc.failed + ts.length := by
  intro ts
  induction ts with
  | nil => intro acc; simp [forwardTargets]
  | cons tid rest ih =>
      intro acc
      rw [forwardTargets]
      rw [forwardMessage_no_content env sid tid m acc.history acc.disk h1 h2]
      simp only [if_neg Bool.false_ne_true]
      refine ⟨by rw [(ih _).1], by rw [(ih _).2.1], by rw [(ih _).2.2.1], ?_⟩
      rw [(ih _).2.2.2]
      show acc.failed + 1 + rest.length = acc.failed + (tid :: rest).length
      simp only [List.length_cons]
      omega

theorem forwardTargets_history_get (env : FwdEnv) (sid : ℕ) (m : Msg) (k : String)
    (hk : k ≠ fwdKey sid m.id) :
    ∀ (ts : List ℕ) (acc : TgtAcc),
      aget (forwardTargets env sid m ts acc).history k = aget acc.history k := by
  intro ts
  induction ts with
  | nil => intro acc; simp [forwardTargets]
  | cons tid rest ih =>
      intro acc
      rw [forwardTargets]
      rw [ih]
      rcases forwardMessage_history_cases env sid tid m acc.history acc.disk with hc | hc
      · rw [hc]
      · rw [hc, aget_aset_ne _ _ _ _ (fun he => hk he.symm)]

theorem forwardTargets_evs_transfer (env : FwdEnv) (sid : ℕ) (m : Msg) :
    ∀ (ts : List ℕ) (acc : TgtAcc) (mid tid' : ℕ),
      Ev.transferCall mid tid' ∈ (forwardTargets env sid m ts acc).evs →
      Ev.transferCall mid tid' ∈ acc.evs ∨ mid = m.id := by
  intro ts
  induction ts with
  | nil => intro acc mid tid' hmemv; rw [forwardTargets] at hmemv; exact Or.inl hmemv
  | cons tid rest ih =>
      intro acc mid tid' hmemv
      rw [forwardTargets] at hmemv
      rcases ih _ mid tid' hmemv with hin | hid
      · rw [forwardMessage_evs] at hin
        rcases List.mem_append.mp hin with hin1 | hin2
        · rcases List.mem_append.mp hin1 with ha | hb
          · exact Or.inl ha
          · rcases List.mem_cons.mp hb with hb1 | hb2
            · injection hb1 with e1 e2
              exact Or.inr e1
            · exact absurd hb2 (by simp)
        · exact absurd hin2 (by simp)
      · exact Or.inr hid

/-! ## C2: dedup keys already recorded are never re-transferred -/

/-- C2: in all three scripts, an item whose dedup key is already present
is only counted as skipped: the forwarder's loop body leaves history,
forwarded and failed untouched, emits no transfer call and bumps
`skipped`; the uploader returns `False` with no send and an unchanged
history; the downloader returns with `skipped_files + 1`, no download,
and an unchanged processed-id set. -/
theorem dedup_skip_no_transfer :
    (∀ (env : FwdEnv) (sid : ℕ) (targets : List ℕ) (m : Msg) (st : FwdState),
      hmem st.history (fwdKey sid m.id) = true →
      (forwardStep env sid targets m st).1.history = st.history ∧
      (forwardStep env sid targets m st).1.skipped = st.skipped + 1 ∧
      (forwardStep env sid targets m st).1.forwarded = st.forwarded ∧
      (forwardStep env sid targets m st).1.failed = st.failed ∧
      (∀ mid tid, Ev.transferCall mid tid ∉ (forwardStep env sid targets m st).2)) ∧
    (∀ (f : UplFile) (tid : String) (sendOk writeOk : Bool) (ts : ℕ)
        (hist disk : UHistory) (stats : UStats),
      (ulook2 hist tid (fileHash f)).isSome = true →
      uploadFile f tid sendOk writeOk ts hist disk stats =
        ⟨false, hist, disk, { stats with skipped := stats.skipped + 1 }, false⟩) ∧
    (∀ (pids : List ℕ) (skipped : ℕ) (m : SMsg) (isEbook dlOk : Bool) (c : ℕ)
        (ms now : ℚ),
      m.valid = true → m.id ∈ pids →
      processSingleMessage pids skipped m isEbook dlOk c ms now =
        ⟨pids, skipped + 1, c, false, 0, false⟩) := by
  refine ⟨?_, ?_, ?_⟩
  · intro env sid targets m st h
    simp [forwardStep, forwardStepAfterWait, h]
  · intro f tid sendOk writeOk ts hist disk stats h
    simp [uploadFile, h]
  · intro pids skipped m isEbook dlOk c ms now hv hmemv
    simp [processSingleMessage, hv, hmemv]

/-- C2 witness: concrete skips in all three scripts. -/
theorem dedup_skip_no_transfer_witness :
    ((forwardStep ⟨true, true, true, 0, 0, "t"⟩ 1 [2] ⟨7, true, "x"⟩
        ⟨[("1_7", .perMessage 0 "t" 7)], [], 0, 0, 0⟩).1.history =
      [("1_7", .perMessage 0 "t" 7)] ∧
     (forwardStep ⟨true, true, true, 0, 0, "t"⟩ 1 [2] ⟨7, true, "x"⟩
        ⟨[("1_7", .perMessage 0 "t" 7)], [], 0, 0, 0⟩).1.skipped = 1 ∧
     (forwardStep ⟨true, true, true, 0, 0, "t"⟩ 1 [2] ⟨7, true, "x"⟩
        ⟨[("1_7", .perMessage 0 "t" 7)], [], 0, 0, 0⟩).1.forwarded = 0 ∧
     (forwardStep ⟨true, true, true, 0, 0, "t"⟩ 1 [2] ⟨7, true, "x"⟩
        ⟨[("1_7", .perMessage 0 "t" 7)], [], 0, 0, 0⟩).1.failed = 0 ∧
     (∀ mid tid, Ev.transferCall mid tid ∉
        (forwardStep ⟨true, true, true, 0, 0, "t"⟩ 1 [2] ⟨7, true, "x"⟩
          ⟨[("1_7", .perMessage 0 "t" 7)], [], 0, 0, 0⟩).2)) ∧
    uploadFile ⟨"a.pdf", 9, 3⟩ "5" true true 0 [("5", [("9_3", ⟨"a.pdf", 0, 9⟩)])] []
        ⟨0, 0, 0, 0, none⟩ =
      ⟨false, [("5", [("9_3", ⟨"a.pdf", 0, 9⟩)])], [], ⟨0, 1, 0, 0, none⟩, false⟩ ∧
    processSingleMessage [7] 0 ⟨true, 7⟩ true true 0 0 0 = ⟨[7], 1, 0, false, 0, false⟩ := by
  refine ⟨?_, ?_, ?_⟩
  · exact dedup_skip_no_transfer.1 ⟨true, true, true, 0, 0, "t"⟩ 1 [2] ⟨7, true, "x"⟩
      ⟨[("1_7", .perMessage 0 "t" 7)], [], 0, 0, 0⟩ (by decide)
  · exact dedup_skip_no_transfer.2.1 ⟨"a.pdf", 9, 3⟩ "5" true true 0
      [("5", [("9_3", ⟨"a.pdf", 0, 9⟩)])] [] ⟨0, 0, 0, 0, none⟩ (by decide)
  · exact dedup_skip_no_transfer.2.2 [7] 0 ⟨true, 7⟩ true true 0 0 0 rfl (by decide)

/-! ## C3: items with no content -/

/-- C3, counterexample.  A message with no media and empty text is indeed
classified as a failure (`forward_message` returns `False` and the failed
counter is bumped once per target), BUT `forward_messages` still records
its dedup key: lines 279-284 update `forward_history[message_hash]`
unconditionally after the target loop, so the key IS inserted into the
history store, contradicting the claim. -/
theorem no_content_recorded_counterexample :
    (forwardMessage ⟨true, true, true, 0, 0, "t"⟩ 1 2 ⟨7, false, ""⟩ [] []).ok = false ∧
    (forwardStep ⟨true, true, true, 0, 0, "t"⟩ 1 [2] ⟨7, false, ""⟩
      ⟨[], [], 0, 0, 0⟩).1.failed = 1 ∧
    hmem (forwardStep ⟨true, true, true, 0, 0, "t"⟩ 1 [2] ⟨7, false, ""⟩
      ⟨[], [], 0, 0, 0⟩).1.history (fwdKey 1 7) = true := by
  refine ⟨by decide, by decide, by decide⟩

/-- C3 (amended): a no-content item makes every per-target
`forward_message` return `False` ("no content" outcome), increments the
failed counter once per configured target, leaves forwarded and skipped
unchanged — and its dedup key IS then inserted into the history store by
the loop's unconditional per-message update. -/
theorem no_content_failed_and_recorded
    (env : FwdEnv) (sid : ℕ) (targets : List ℕ) (m : Msg) (st : FwdState)
    (h1 : m.hasMedia = false) (h2 : m.text = "")
    (h3 : hmem st.history (fwdKey sid m.id) = false) :
    (∀ (tid : ℕ) (h d : History), (forwardMessage env sid tid m h d).ok = false) ∧
    (forwardStep env sid targets m st).1.failed = st.failed + targets.length ∧
    (forwardStep env sid targets m st).1.forwarded = st.forwarded ∧
    (forwardStep env sid targets m st).1.skipped = st.skipped ∧
    hmem (forwardStep env sid targets m st).1.history (fwdKey sid m.id) = true := by
  obtain ⟨hh, hd, hf, hfl⟩ := forwardTargets_no_content env sid m h1 h2 targets
    ⟨st.history, st.disk, st.forwarded, st.failed, []⟩
  refine ⟨?_, ?_, ?_, ?_, ?_⟩
  · intro tid h d
    rw [forwardMessage_no_content env sid tid m h d h1 h2]
  · simp only [forwardStep, forwardStepAfterWait, h3]
    simpa using hfl
  · simp only [forwardStep, forwardStepAfterWait, h3]
    simpa using hf
  · simp [forwardStep, forwardStepAfterWait, h3]
  · simp only [forwardStep, forwardStepAfterWait, h3]
    simp [hmem, aget_aset_self]

/-- C3 witness: the amended theorem at a no-content message with two
targets and empty history. -/
theorem no_content_failed_and_recorded_witness :
    (∀ (tid : ℕ) (h d : History),
      (forwardMessage ⟨true, true, true, 0, 0, "t"⟩ 1 tid ⟨7, false, ""⟩ h d).ok = false) ∧
    (forwardStep ⟨true, true, true, 0, 0, "t"⟩ 1 [2, 3] ⟨7, false, ""⟩
      ⟨[], [], 0, 4, 0⟩).1.failed = 0 + 2 ∧
    (forwardStep ⟨true, true, true, 0, 0, "t"⟩ 1 [2, 3] ⟨7, false, ""⟩
      ⟨[], [], 0, 4, 0⟩).1.forwarded = 0 ∧
    (forwardStep ⟨true, true, true, 0, 0, "t"⟩ 1 [2, 3] ⟨7, false, ""⟩
      ⟨[], [], 0, 4, 0⟩).1.skipped = 4 ∧
    hmem (forwardStep ⟨true, true, true, 0, 0, "t"⟩ 1 [2, 3] ⟨7, false, ""⟩
      ⟨[], [], 0, 4, 0⟩).1.history (fwdKey 1 7) = true := by
  exact no_content_failed_and_recorded ⟨true, true, true, 0, 0, "t"⟩ 1 [2, 3]
    ⟨7, false, ""⟩ ⟨[], [], 0, 4, 0⟩ rfl rfl (by decide)

/-! ## C6: order of dedup check and rate-limiter call -/

/-- C6, counterexample.  The claim says an item whose key is already in
the history store causes "no rate-limiter wait".  But line 261 of
`channel_forwarder.py` calls `_wait_for_rate_limit()` BEFORE the
membership check, so even this skipped item incurs a rate-limiter wait:
here the item is skipped (`skipped = 1`) and yet `Ev.rateWait` is among
the iteration's events. -/
theorem rate_wait_before_dedup_counterexample :
    (forwardStep ⟨true, true, true, 0, 0, "t"⟩ 1 [2] ⟨7, true, "x"⟩
      ⟨[("1_7", .perMessage 0 "t" 7)], [], 0, 0, 0⟩).1.skipped = 1 ∧
    Ev.rateWait ∈ (forwardStep ⟨true, true, true, 0, 0, "t"⟩ 1 [2] ⟨7, true, "x"⟩
      ⟨[("1_7", .perMessage 0 "t" 7)], [], 0, 0, 0⟩).2 := by
  refine ⟨by decide, by decide⟩

/-- C6 (amended): the rate-limiter wait precedes the membership check; an
item whose key is already present incurs exactly one rate-limiter wait and
then only the skipped-counter increment — no transfer, no further
events. -/
theorem rate_wait_precedes_dedup_check
    (env : FwdEnv) (sid : ℕ) (targets : List ℕ) (m : Msg) (st : FwdState)
    (h : hmem st.history (fwdKey sid m.id) = true) :
    forwardStep env sid targets m st =
      ({ st with skipped := st.skipped + 1 }, [Ev.rateWait]) := by
  simp [forwardStep, forwardStepAfterWait, h]

/-- C6 witness: the amended theorem at a concrete already-recorded item. -/
theorem rate_wait_precedes_dedup_check_witness :
    forwardStep ⟨true, true, true, 0, 0, "t"⟩ 1 [2] ⟨7, true, "x"⟩
        ⟨[("1_7", .perMessage 0 "t" 7)], [], 3, 5, 0⟩ =
      (⟨[("1_7", .perMessage 0 "t" 7)], [], 3, 6, 0⟩, [Ev.rateWait]) := by
  exact rate_wait_precedes_dedup_check ⟨true, true, true, 0, 0, "t"⟩ 1 [2]
    ⟨7, true, "x"⟩ ⟨[("1_7", .perMessage 0 "t" 7)], [], 3, 5, 0⟩ (by decide)

/-! ## C7: every history mutation is followed by a save -/

/-- C7: whenever an operation changes the in-memory history and the write
succeeds, the operation ends with the on-disk mapping equal to the full
in-memory mapping: `forward_message` (record + `save_history`), one
iteration of `forward_messages` (unconditional record + `save_history`),
and `upload_file` (record + stats + `save_history`). -/
theorem record_implies_save :
    (∀ (env : FwdEnv) (sid tid : ℕ) (m : Msg) (h d : History),
      env.writeOk = true →
      (forwardMessage env sid tid m h d).history ≠ h →
      (forwardMessage env sid tid m h d).disk = (forwardMessage env sid tid m h d).history) ∧
    (∀ (env : FwdEnv) (sid : ℕ) (targets : List ℕ) (m : Msg) (st : FwdState),
      env.writeOk = true →
      hmem st.history (fwdKey sid m.id) = false →
      (forwardStep env sid targets m st).1.disk = (forwardStep env sid targets m st).1.history) ∧
    (∀ (f : UplFile) (tid : String) (sendOk : Bool) (ts : ℕ)
        (hist disk : UHistory) (stats : UStats),
      (uploadFile f tid sendOk true ts hist disk stats).history ≠ hist →
      (uploadFile f tid sendOk true ts hist disk stats).disk =
        (uploadFile f tid sendOk true ts hist disk stats).history) := by
  refine ⟨?_, ?_, ?_⟩
  · intro env sid tid m h d hw hne
    rcases forwardMessage_result env sid tid m h d with he | he <;> rw [he] <;> rw [he] at hne
    · simp at hne
    · simp [hw]
  · intro env sid targets m st hw h
    simp [forwardStep, forwardStepAfterWait, h, hw]
  · intro f tid sendOk ts hist disk stats hne
    rw [uploadFile] at hne ⊢
    by_cases hp : (ulook2 hist tid (fileHash f)).isSome = true
    · rw [if_pos hp] at hne
      simp at hne
    · rw [if_neg hp] at hne ⊢
      by_cases hs : sendOk = true
      · rw [if_pos hs]
        simp
      · rw [if_neg hs] at hne
        simp at hne

/-- C7 witness: a successful media forward, a loop iteration over a fresh
message, and a successful upload, each with a succeeding write, leave disk
equal to memory. -/
theorem record_implies_save_witness :
    (forwardMessage ⟨true, true, true, 0, 0, "t"⟩ 1 2 ⟨7, true, "x"⟩ [] []).disk =
      (forwardMessage ⟨true, true, true, 0, 0, "t"⟩ 1 2 ⟨7, true, "x"⟩ [] []).history ∧
    (forwardStep ⟨true, true, true, 0, 0, "t"⟩ 1 [2] ⟨7, true, "x"⟩
      ⟨[], [], 0, 0, 0⟩).1.disk =
      (forwardStep ⟨true, true, true, 0, 0, "t"⟩ 1 [2] ⟨7, true, "x"⟩
        ⟨[], [], 0, 0, 0⟩).1.history ∧
    (uploadFile ⟨"a.pdf", 9, 3⟩ "5" true true 0 [] [] ⟨0, 0, 0, 0, none⟩).disk =
      (uploadFile ⟨"a.pdf", 9, 3⟩ "5" true true 0 [] [] ⟨0, 0, 0, 0, none⟩).history := by
  refine ⟨?_, ?_, ?_⟩
  · exact record_implies_save.1 ⟨true, true, true, 0, 0, "t"⟩ 1 2 ⟨7, true, "x"⟩ [] []
      rfl (by decide)
  · exact record_implies_save.2.1 ⟨true, true, true, 0, 0, "t"⟩ 1 [2] ⟨7, true, "x"⟩
      ⟨[], [], 0, 0, 0⟩ rfl (by decide)
  · exact record_implies_save.2.2 ⟨"a.pdf", 9, 3⟩ "5" true 0 [] [] ⟨0, 0, 0, 0, none⟩
      (by decide)



/-! ## C4: history load/save error handling -/

/-- C4, counterexample.  The claim says every script's history save
swallows write errors and returns normally.  The forwarder's does
(first conjunct), but `pdfuploader.save_history` has no `try/except`: a
failing write propagates the exception to the caller instead of
returning. -/
theorem uploader_save_raises_counterexample :
    (save_history_fwd false [] []).isOk = true ∧
    (save_history_upl false [] []).isOk = false := by
  refine ⟨rfl, rfl⟩

/-- C4 (amended): in both scripts `load_history` returns the empty mapping
when the file is absent or unparseable, without raising, and returns the
parsed mapping otherwise.  The forwarder's `save_history` always returns
normally (the error is printed and swallowed), changing the disk only
when the write succeeds; the uploader's `save_history` returns normally
only when the write succeeds and raises otherwise. -/
theorem history_load_save_error_handling :
    load_history_fwd .absent = [] ∧
    load_history_fwd .unparseable = [] ∧
    (∀ h : History, load_history_fwd (.content h) = h) ∧
    load_history_upl .absent = [] ∧
    load_history_upl .unparseable = [] ∧
    (∀ h : UHistory, load_history_upl (.content h) = h) ∧
    (∀ (writeOk : Bool) (mem disk : History),
      save_history_fwd writeOk mem disk = .ok (if writeOk then mem else disk)) ∧
    (∀ mem disk : UHistory, save_history_upl true mem disk = .ok mem) ∧
    (∀ mem disk : UHistory, save_history_upl false mem disk = .error ()) := by
  exact ⟨rfl, rfl, fun _ => rfl, rfl, rfl, fun _ => rfl, fun _ _ _ => rfl,
    fun _ _ => rfl, fun _ _ => rfl⟩

/-! ## C5: entity resolver candidate order -/

theorem tryQueries_first_success {E : Type} (resolve : Query → Option E) :
    ∀ (qs : List Query) (i : ℕ) (q : Query) (e : E),
      qs.get? i = some q → resolve q = some e →
      (∀ q' ∈ qs.take i, resolve q' = none) →
      tryQueries resolve qs = some e := by
  intro qs
  induction qs with
  | nil => intro i q e hget; simp at hget
  | cons hd t ih =>
      intro i q e hget hres hprev
      match i with
      | 0 =>
          simp only [List.get?] at hget
          injection hget with hq
          subst hq
          simp [tryQueries, hres]
      | i + 1 =>
          have hhd : resolve hd = none := hprev hd (by simp [List.take_succ_cons])
          simp only [tryQueries, hhd]
          exact ih i q e hget hres
            (fun q' hq' => hprev q' (by simp [List.take_succ_cons, hq']))

theorem tryQueries_all_none {E : Type} (resolve : Query → Option E) :
    ∀ qs : List Query, (∀ q ∈ qs, resolve q = none) → tryQueries resolve qs = none := by
  intro qs
  induction qs with
  | nil => intro _; rfl
  | cons hd t ih =>
      intro hall
      simp only [tryQueries, hall hd (by simp)]
      exact ih (fun q hq => hall q (by simp [hq]))

/-- C5: both resolvers try their fixed candidate list strictly in order —
for a parseable numeric-looking input the literal integer, the
`-100`-normalized integer and the bare digits, then the raw string and the
`@`-prefixed string (the uploader adds the two lowercase variants) —
returning the entity of the first candidate that resolves, and raising an
error whose message names the original input when every candidate fails. -/
theorem entity_resolver_candidate_order (E : Type) (resolve : Query → Option E)
    (name : String) :
    (∀ qs, forwarderCandidates name = some qs →
      (∀ (i : ℕ) (q : Query) (e : E),
        qs.get? i = some q → resolve q = some e →
        (∀ q' ∈ qs.take i, resolve q' = none) →
        getEntityFromName_fwd resolve name = .ok e) ∧
      ((∀ q ∈ qs, resolve q = none) →
        getEntityFromName_fwd resolve name =
          .error ("Invalid channel format: " ++ name ++
            " (Could not find channel: " ++ name ++ ")"))) ∧
    (∀ qs, uploaderCandidates name = some qs →
      (∀ (i : ℕ) (q : Query) (e : E),
        qs.get? i = some q → resolve q = some e →
        (∀ q' ∈ qs.take i, resolve q' = none) →
        getEntityFromName_upl resolve name = .ok e) ∧
      ((∀ q ∈ qs, resolve q = none) →
        getEntityFromName_upl resolve name =
          .error ("Invalid target format: " ++ name ++
            " (Could not find channel: " ++ name ++ ")"))) := by
  constructor
  · intro qs hqs
    have hred : getEntityFromName_fwd resolve name =
        match tryQueries resolve qs with
        | some e => Except.ok e
        | none => Except.error ("Invalid channel format: " ++ name ++
            " (Could not find channel: " ++ name ++ ")") := by
      rw [getEntityFromName_fwd, hqs]
    constructor
    · intro i q e hget hres hprev
      rw [hred, tryQueries_first_success resolve qs i q e hget hres hprev]
    · intro hall
      rw [hred, tryQueries_all_none resolve qs hall]
  · intro qs hqs
    have hred : getEntityFromName_upl resolve name =
        match tryQueries resolve qs with
        | some e => Except.ok e
        | none => Except.error ("Invalid target format: " ++ name ++
            " (Could not find channel: " ++ name ++ ")") := by
      rw [getEntityFromName_upl, hqs]
    constructor
    · intro i q e hget hres hprev
      rw [hred, tryQueries_first_success resolve qs i q e hget hres hprev]
    · intro hall
      rw [hred, tryQueries_all_none resolve qs hall]

/-- C5 witness: on `"-10012345"` the forwarder resolver returns via the
third candidate (the bare digits `12345`) when the two earlier numeric
candidates fail; and the uploader resolver reports the descriptive error,
naming the input, when everything fails. -/
theorem entity_resolver_candidate_order_witness :
    getEntityFromName_fwd
        (fun q => if q = Query.byId 12345 then some 0 else none) "-10012345" =
      .ok 0 ∧
    getEntityFromName_upl (fun _ : Query => (none : Option ℕ)) "abc" =
      .error "Invalid target format: abc (Could not find channel: abc)" := by
  constructor
  · exact ((entity_resolver_candidate_order ℕ
      (fun q => if q = Query.byId 12345 then some 0 else none) "-10012345").1
      [.byId (-10012345), .byId (-10012345), .byId 12345,
        .byName "-10012345", .byName "@-10012345"] (by decide)).1
      2 (Query.byId 12345) 0 (by decide) (by decide) (by decide)
  · have := ((entity_resolver_candidate_order ℕ (fun _ : Query => (none : Option ℕ))
      "abc").2 [.byName "abc", .byName "@abc", .byName "abc", .byName "@abc"]
      (by decide)).2 (by intro q _; rfl)
    rw [this]
    exact congrArg Except.error (by decide)

/-! ## C8: cancellation mid-sleep -/

/-- C8: a `CancelledError` delivered while the rate limiter sleeps
(budget exhausted inside the window) is re-raised by
`_wait_for_rate_limit`, makes `forward_messages` stop and re-raise to its
caller without touching the loop state, and `main`'s `finally` block then
persists the history store to disk and disconnects the client. -/
theorem cancellation_propagates_and_finalizes
    (rs : RateState) (now wake : ℚ)
    (h1 : now - rs.last_request_time < RATE_WINDOW)
    (h2 : RATE_LIMIT ≤ rs.requests_in_window) :
    waitForRateLimitC true rs now wake = .error () ∧
    (∀ (env : FwdEnv) (sid : ℕ) (targets : List ℕ) (m : Msg) (st : FwdState)
        (rest : List (Bool × ℚ × ℚ × Msg)),
      forwardRunC env sid targets rs st ((true, now, wake, m) :: rest) =
        (rs, st, true)) ∧
    (∀ (st : FwdState) (c : Bool),
      (mainModel true (st, c)).1.disk = (mainModel true (st, c)).1.history ∧
      (mainModel true (st, c)).2 = true) := by
  have hw : waitForRateLimitC true rs now wake = .error () := by
    rw [waitForRateLimitC]
    rw [if_neg (not_le.mpr h1), if_pos h2]
    rfl
  refine ⟨hw, ?_, ?_⟩
  · intro env sid targets m st rest
    rw [forwardRunC, forwardStepC, hw]
  · intro st c
    exact ⟨rfl, rfl⟩

/-- C8 witness: a cancellation at t = 1/2 in a window started at 0 with
the budget (30) exhausted. -/
theorem cancellation_propagates_and_finalizes_witness :
    waitForRateLimitC true ⟨0, 30⟩ (1/2) 1 = .error () ∧
    forwardRunC ⟨true, true, true, 0, 0, "t"⟩ 1 [2] ⟨0, 30⟩ ⟨[], [], 0, 0, 0⟩
        [(true, 1/2, 1, ⟨7, true, "x"⟩)] =
      (⟨0, 30⟩, ⟨[], [], 0, 0, 0⟩, true) ∧
    (mainModel true (⟨[("1_7", .perMessage 0 "t" 7)], [], 1, 0, 0⟩, true)).1.disk =
      [("1_7", .perMessage 0 "t" 7)] ∧
    (mainModel true (⟨[("1_7", .perMessage 0 "t" 7)], [], 1, 0, 0⟩, true)).2 = true := by
  obtain ⟨hw, hrun, hmain⟩ := cancellation_propagates_and_finalizes ⟨0, 30⟩ (1/2) 1
    (by norm_num [RATE_WINDOW]) (by norm_num [RATE_LIMIT])
  refine ⟨hw, hrun ⟨true, true, true, 0, 0, "t"⟩ 1 [2] ⟨7, true, "x"⟩ ⟨[], [], 0, 0, 0⟩ [], ?_, ?_⟩
  · exact (hmain ⟨[("1_7", .perMessage 0 "t" 7)], [], 1, 0, 0⟩ true).1
  · exact (hmain ⟨[("1_7", .perMessage 0 "t" 7)], [], 1, 0, 0⟩ true).2

/-! ## C10: uploader dedup is per (target, file) -/

/-- C10: `upload_file` skips exactly when the two-level history maps this
target's id to this file's `size_mtime` key (first two conjuncts); a
record successfully made for one target never changes any lookup under a
different target id, so it cannot suppress the same file's upload
elsewhere (third conjunct); and a successful upload stores its record
under `history[target][size_mtime]` (fourth conjunct) — the persisted
mapping is two-level, not a flat composite-key map. -/
theorem upload_dedup_per_target
    (f : UplFile) (tid : String) (sendOk writeOk : Bool) (ts : ℕ)
    (hist disk : UHistory) (stats : UStats) :
    ((ulook2 hist tid (fileHash f)).isSome = true →
      uploadFile f tid sendOk writeOk ts hist disk stats =
        ⟨false, hist, disk, { stats with skipped := stats.skipped + 1 }, false⟩) ∧
    ((ulook2 hist tid (fileHash f)).isSome = false →
      (uploadFile f tid sendOk writeOk ts hist disk stats).sent = true) ∧
    (∀ tid' fh' : String, tid' ≠ tid →
      ulook2 (uploadFile f tid sendOk writeOk ts hist disk stats).history tid' fh' =
        ulook2 hist tid' fh') ∧
    ((ulook2 hist tid (fileHash f)).isSome = false → sendOk = true →
      ulook2 (uploadFile f tid sendOk writeOk ts hist disk stats).history tid (fileHash f) =
        some ⟨f.name, ts, f.size⟩) := by
  refine ⟨?_, ?_, ?_, ?_⟩
  · intro hp
    rw [uploadFile, if_pos hp]
  · intro hp
    rw [uploadFile, if_neg (by rw [hp]; exact Bool.false_ne_true)]
    by_cases hs : sendOk = true
    · rw [if_pos hs]
      by_cases hwk : writeOk = true
      · rw [if_pos hwk]
      · rw [if_neg hwk]
    · rw [if_neg hs]
  · intro tid' fh' hne
    rw [uploadFile]
    by_cases hp : (ulook2 hist tid (fileHash f)).isSome = true
    · rw [if_pos hp]
    · rw [if_neg hp]
      by_cases hs : sendOk = true
      · rw [if_pos hs]
        by_cases hwk : writeOk = true
        · rw [if_pos hwk]
          show ulook2 (uinsert hist tid (fileHash f) ⟨f.name, ts, f.size⟩) tid' fh' = _
          rw [ulook2, uinsert, aget_aset_ne _ _ _ _ (fun he => hne he.symm)]
          rfl
        · rw [if_neg hwk]
          show ulook2 (uinsert hist tid (fileHash f) ⟨f.name, ts, f.size⟩) tid' fh' = _
          rw [ulook2, uinsert, aget_aset_ne _ _ _ _ (fun he => hne he.symm)]
          rfl
      · rw [if_neg hs]
  · intro hp hs
    rw [uploadFile, if_neg (by rw [hp]; exact Bool.false_ne_true), if_pos hs]
    by_cases hwk : writeOk = true
    · rw [if_pos hwk]
      show ulook2 (uinsert hist tid (fileHash f) ⟨f.name, ts, f.size⟩) tid (fileHash f) = _
      rw [ulook2, uinsert, aget_aset_self]
      exact aget_aset_self _ _ _
    · rw [if_neg hwk]
      show ulook2 (uinsert hist tid (fileHash f) ⟨f.name, ts, f.size⟩) tid (fileHash f) = _
      rw [ulook2, uinsert, aget_aset_self]
      exact aget_aset_self _ _ _

/-- C10 witness: a record made under target "5" does not suppress the
upload of the same file to target "6", and the stored record sits under
`history["5"]["9_3"]`. -/
theorem upload_dedup_per_target_witness :
    uploadFile ⟨"a.pdf", 9, 3⟩ "5" true true 0 [("5", [("9_3", ⟨"a.pdf", 0, 9⟩)])] []
        ⟨0, 0, 0, 0, none⟩ =
      ⟨false, [("5", [("9_3", ⟨"a.pdf", 0, 9⟩)])], [], ⟨0, 1, 0, 0, none⟩, false⟩ ∧
    (uploadFile ⟨"a.pdf", 9, 3⟩ "6" true true 0 [("5", [("9_3", ⟨"a.pdf", 0, 9⟩)])] []
      ⟨0, 0, 0, 0, none⟩).sent = true ∧
    ulook2 (uploadFile ⟨"a.pdf", 9, 3⟩ "6" true true 0
        [("5", [("9_3", ⟨"a.pdf", 0, 9⟩)])] [] ⟨0, 0, 0, 0, none⟩).history "5" "9_3" =
      some ⟨"a.pdf", 0, 9⟩ ∧
    ulook2 (uploadFile ⟨"a.pdf", 9, 3⟩ "6" true true 0
        [("5", [("9_3", ⟨"a.pdf", 0, 9⟩)])] [] ⟨0, 0, 0, 0, none⟩).history "6" "9_3" =
      some ⟨"a.pdf", 0, 9⟩ := by
  refine ⟨?_, ?_, ?_, ?_⟩
  · exact (upload_dedup_per_target ⟨"a.pdf", 9, 3⟩ "5" true true 0
      [("5", [("9_3", ⟨"a.pdf", 0, 9⟩)])] [] ⟨0, 0, 0, 0, none⟩).1 (by decide)
  · exact (upload_dedup_per_target ⟨"a.pdf", 9, 3⟩ "6" true true 0
      [("5", [("9_3", ⟨"a.pdf", 0, 9⟩)])] [] ⟨0, 0, 0, 0, none⟩).2.1 (by decide)
  · have := (upload_dedup_per_target ⟨"a.pdf", 9, 3⟩ "6" true true 0
      [("5", [("9_3", ⟨"a.pdf", 0, 9⟩)])] [] ⟨0, 0, 0, 0, none⟩).2.2.1 "5" "9_3"
      (by decide)
    rw [this]
    rfl
  · exact (upload_dedup_per_target ⟨"a.pdf", 9, 3⟩ "6" true true 0
      [("5", [("9_3", ⟨"a.pdf", 0, 9⟩)])] [] ⟨0, 0, 0, 0, none⟩).2.2.2 (by decide) rfl



/-! ## C9: resume offset -/

theorem forwardStep_history_get (env : FwdEnv) (sid : ℕ) (targets : List ℕ)
    (m : Msg) (st : FwdState) (k : String) (hk : k ≠ fwdKey sid m.id) :
    aget (forwardStep env sid targets m st).1.history k = aget st.history k := by
  by_cases h : hmem st.history (fwdKey sid m.id) = true
  · simp [forwardStep, forwardStepAfterWait, h]
  · have h' : hmem st.history (fwdKey sid m.id) = false := by
      simpa using h
    simp only [forwardStep, forwardStepAfterWait, h', Bool.false_eq_true, if_false]
    rw [aget_aset_ne _ _ _ _ (fun he => hk he.symm)]
    exact forwardTargets_history_get env sid m k hk targets _

theorem forwardStep_events_transfer (env : FwdEnv) (sid : ℕ) (targets : List ℕ)
    (m : Msg) (st : FwdState) (mid tid : ℕ)
    (hmemv : Ev.transferCall mid tid ∈ (forwardStep env sid targets m st).2) :
    mid = m.id := by
  rw [forwardStep] at hmemv
  rcases List.mem_cons.mp hmemv with hhd | htl
  · exact absurd hhd (by simp)
  · by_cases h : hmem st.history (fwdKey sid m.id) = true
    · rw [forwardStepAfterWait] at htl
      rw [if_pos h] at htl
      exact absurd htl (by simp)
    · have h' : hmem st.history (fwdKey sid m.id) = false := by simpa using h
      rw [forwardStepAfterWait, if_neg (by rw [h']; exact Bool.false_ne_true)] at htl
      rcases forwardTargets_evs_transfer env sid m targets _ mid tid htl with hin | hid
      · exact absurd hin (by simp)
      · exact hid

theorem forwardRun_events_transfer (env : FwdEnv) (sid : ℕ) (targets : List ℕ) :
    ∀ (msgs : List Msg) (st : FwdState) (mid tid : ℕ),
      Ev.transferCall mid tid ∈ (forwardRun env sid targets st msgs).2 →
      ∃ m ∈ msgs, mid = m.id := by
  intro msgs
  induction msgs with
  | nil => intro st mid tid hmemv; exact absurd hmemv (by simp [forwardRun])
  | cons m ms ih =>
      intro st mid tid hmemv
      rw [forwardRun] at hmemv
      rcases List.mem_append.mp hmemv with hl | hr
      · exact ⟨m, by simp, forwardStep_events_transfer env sid targets m st mid tid hl⟩
      · obtain ⟨m', hm', he⟩ := ih _ mid tid hr
        exact ⟨m', by simp [hm'], he⟩

theorem forwardRun_history_get (env : FwdEnv) (sid : ℕ) (targets : List ℕ) :
    ∀ (msgs : List Msg) (st : FwdState) (k : String),
      (∀ m ∈ msgs, fwdKey sid m.id ≠ k) →
      aget (forwardRun env sid targets st msgs).1.history k = aget st.history k := by
  intro msgs
  induction msgs with
  | nil => intro st k _; rfl
  | cons m ms ih =>
      intro st k hk
      rw [forwardRun]
      rw [ih _ k (fun m' hm' => hk m' (by simp [hm']))]
      exact forwardStep_history_get env sid targets m st k
        (fun he => hk m (by simp) he.symm)

theorem foldl_max_of_nonneg :
    ∀ (l : List ℤ) (x : ℤ), 0 ≤ x → (∀ z ∈ l, 0 ≤ z) →
      l.foldl max x = max x (pyMax0 l) := by
  intro l
  induction l with
  | nil =>
      intro x hx _
      simp only [List.foldl_nil, pyMax0]
      exact (max_eq_left hx).symm
  | cons y ys ih =>
      intro x hx hl
      have hy : (0 : ℤ) ≤ y := hl y (by simp)
      have hys : ∀ z ∈ ys, (0 : ℤ) ≤ z := fun z hz => hl z (by simp [hz])
      simp only [List.foldl_cons]
      rw [ih (max x y) (le_trans hx (le_max_left x y)) hys]
      have hrhs : pyMax0 (y :: ys) = max y (pyMax0 ys) := by
        simp only [pyMax0]
        exact ih y hy hys
      rw [hrhs, max_assoc]

/-- C9, counterexample.  The resume offset is computed with
`k.startswith(str(source.id))`, a string-prefix test, not a test that the
key belongs to the source.  History `{"100_5": ...}` against source id
`10`: the code derives offset `5` although no key of source `10` exists
(the claimed "maximum message id among keys belonging to the source"
would be the default 0). -/
theorem resume_offset_prefix_confusion :
    lastIdForSource ["100_5"] "10" = 5 ∧
    specLastIdForSource ["100_5"] "10" = 0 ∧
    lastIdForSource ["100_5"] "10" ≠ specLastIdForSource ["100_5"] "10" :=
  ⟨by decide, by decide, by decide⟩

/-- C9 (amended).  First part: the starting offset is a running maximum
(default 0) of the message ids parsed from the history keys that have the
DECIMAL STRING of the source id as a prefix — which can include keys of
other sources extending that string — not only the keys belonging to the
source: a non-prefix key is ignored, a prefix key contributes its parsed
id to the maximum.  Second part: running the loop on the messages the
client yields for a positive `offset_id` (exactly those with id strictly
below the offset), the message whose id equals the offset is never the
subject of a transfer call, and any history key outside the iterated
keys — in particular the offset message's own key — keeps its stored
entry unchanged (no re-recording). -/
theorem resume_offset_behavior :
    (∀ (sid k : String) (keys : List String),
      (pyStartswith k sid = false →
        lastIdForSource (k :: keys) sid = lastIdForSource keys sid) ∧
      (∀ n : ℤ, pyStartswith k sid = true → keyMsgId k = some n → 0 ≤ n →
        (∀ k' ∈ keys, ∀ n' : ℤ, keyMsgId k' = some n' → 0 ≤ n') →
        lastIdForSource (k :: keys) sid = max n (lastIdForSource keys sid))) ∧
    (∀ (env : FwdEnv) (sid : ℕ) (targets : List ℕ) (st : FwdState)
        (msgs : List Msg) (off : ℤ), 0 < off →
      (∀ tid, Ev.transferCall off.toNat tid ∉
        (forwardRun env sid targets st (iterWithOffset msgs off)).2) ∧
      (∀ k, (∀ m ∈ iterWithOffset msgs off, fwdKey sid m.id ≠ k) →
        aget (forwardRun env sid targets st (iterWithOffset msgs off)).1.history k =
          aget st.history k)) := by
  constructor
  · intro sid k keys
    constructor
    · intro h
      simp [lastIdForSource, List.filter_cons, h]
    · intro n h hn hn0 hkeys
      have hrest : ∀ z ∈ (List.filter (fun k => pyStartswith k sid) keys).filterMap keyMsgId,
          (0 : ℤ) ≤ z := by
        intro z hz
        obtain ⟨k', hk', hkz⟩ := List.mem_filterMap.mp hz
        exact hkeys k' (List.mem_filter.mp hk').1 z hkz
      rw [lastIdForSource, List.filter_cons, if_pos h, List.filterMap_cons, hn]
      show pyMax0 (n :: _) = _
      simp only [pyMax0]
      exact foldl_max_of_nonneg _ n hn0 hrest
  · intro env sid targets st msgs off hoff
    constructor
    · intro tid hmemv
      obtain ⟨m, hm, he⟩ := forwardRun_events_transfer env sid targets _ st _ tid hmemv
      rw [iterWithOffset, if_neg (by exact fun h0 => absurd (h0 ▸ hoff) (lt_irrefl 0))] at hm
      have hlt : (m.id : ℤ) < off := by
        have := List.mem_filter.mp hm
        simpa using this.2
      rw [← he] at hlt
      rw [Int.toNat_of_nonneg (le_of_lt hoff)] at hlt
      exact absurd hlt (lt_irrefl off)
    · intro k hk
      exact forwardRun_history_get env sid targets _ st k hk

/-- C9 witness.  With history key `"100_5"` and source id `100`, the
amended offset rule gives max 5 0 = 5; resuming with offset 5 over
messages with ids 7, 5 and 3, only id 3 is iterated (ids below the
offset), message 5 is never transferred, and its stored entry is
untouched. -/
theorem resume_offset_behavior_witness :
    lastIdForSource ["100_5"] "100" = max 5 (lastIdForSource [] "100") ∧
    (∀ tid, Ev.transferCall (Int.toNat 5) tid ∉
      (forwardRun ⟨true, true, true, 0, 0, "t"⟩ 100 [2]
        ⟨[("100_5", .perMessage 0 "t" 5)], [], 0, 0, 0⟩
        (iterWithOffset [⟨7, true, "x"⟩, ⟨5, true, "x"⟩, ⟨3, true, "x"⟩] 5)).2) ∧
    aget (forwardRun ⟨true, true, true, 0, 0, "t"⟩ 100 [2]
        ⟨[("100_5", .perMessage 0 "t" 5)], [], 0, 0, 0⟩
        (iterWithOffset [⟨7, true, "x"⟩, ⟨5, true, "x"⟩, ⟨3, true, "x"⟩] 5)).1.history
        "100_5" =
      aget ([("100_5", FRecord.perMessage 0 "t" 5)] : History) "100_5" := by
  refine ⟨?_, ?_, ?_⟩
  · exact ((resume_offset_behavior.1 "100" "100_5" []).2 5 (by decide) (by decide)
      (by decide) (by intro k' hk'; exact absurd hk' (by simp)))
  · exact (resume_offset_behavior.2 ⟨true, true, true, 0, 0, "t"⟩ 100 [2]
      ⟨[("100_5", .perMessage 0 "t" 5)], [], 0, 0, 0⟩
      [⟨7, true, "x"⟩, ⟨5, true, "x"⟩, ⟨3, true, "x"⟩] 5 (by norm_num)).1
  · exact (resume_offset_behavior.2 ⟨true, true, true, 0, 0, "t"⟩ 100 [2]
      ⟨[("100_5", .perMessage 0 "t" 5)], [], 0, 0, 0⟩
      [⟨7, true, "x"⟩, ⟨5, true, "x"⟩, ⟨3, true, "x"⟩] 5 (by norm_num)).2
      "100_5" (by decide)


end TGLib
